import Mathlib

/-!
Verification of the natural-language specification of `get_aws_ranges.py`
(repository Xeteskian/aws-scripts) against a shallow embedding of the code.

The script downloads AWS's published ip-ranges.json (or reuses a cached copy),
then answers one query per invocation: list regions, list services, list
filtered ip ranges, or find which ranges contain a given IP address.

Conventions of the embedding:
  * Python strings are Lean `String`s; string algorithms recurse over `s.data`
    (the `List Char` view) so that everything reduces in the kernel.
  * Python's arbitrary-precision ints are `Nat`.
  * The printed output of each function is modelled as a `List String`
    (one element per `print` call; embedded newlines are kept verbatim).
  * An uncaught Python exception is modelled as `Except.error`; the process
    exit code of an uncaught exception is 1.
  * The JSON document is a small inductive `Json`; the behavior of the Python
    standard library (`ipaddress`, `str.upper`, `str.split`, dict lookup,
    truthiness) is modelled from its documented semantics, since the script
    delegates to it.
-/

/-- One record of `data["prefixes"]`.  The source field names are
`ip_prefix`, `region`, `service`; the first is called `cidr` here. -/
structure Entry where
  cidr : String
  region : String
  service : String
deriving DecidableEq, Repr

/-- A JSON value, as produced by `json.load`. -/
inductive Json where
  | null
  | bool (b : Bool)
  | num (n : Int)
  | str (s : String)
  | arr (xs : List Json)
  | obj (kvs : List (String × Json))

/-- Python truthiness of a JSON value (`if data:`). -/
def Json.truthy : Json → Bool
  | .null => false
  | .bool b => b
  | .num n => n != 0
  | .str s => !(s == "")
  | .arr xs => !xs.isEmpty
  | .obj kvs => !kvs.isEmpty

/-- Dictionary lookup (`d[key]` hit/miss test): first binding wins. -/
def jlookup : List (String × Json) → String → Option Json
  | [], _ => none
  | (k, v) :: rest, key => if k = key then some v else jlookup rest key

/-- Whether a JSON value is a dict that has the given key. -/
def Json.hasKey : Json → String → Bool
  | .obj kvs, k => (jlookup kvs k).isSome
  | _, _ => false

/-- Python truthiness of an optional string argument
(`argparse` yields `None` when the option is absent; `""` is falsy). -/
def truthyStr : Option String → Bool
  | none => false
  | some s => !(s == "")

/-- Model of Python `str.upper()`: per-character upper-casing
(the region/service strings involved are ASCII). -/
def pyUpper (s : String) : String :=
  ⟨s.data.map Char.toUpper⟩

/-- Model of Python `str.split(sep)` for a one-character separator:
splits on every occurrence, keeping empty pieces. -/
def splitOnChar (c : Char) : List Char → List (List Char)
  | [] => [[]]
  | x :: xs =>
    let r := splitOnChar c xs
    if x = c then [] :: r
    else
      match r with
      | [] => [[x]]
      | h :: t => (x :: h) :: t

/-- Decimal value of a digit character. -/
def digitVal (c : Char) : Nat := c.toNat - 48

/-- Decimal value of a digit string (callers check `isDigit` first). -/
def decimalValue (cs : List Char) : Nat :=
  cs.foldl (fun a c => a * 10 + digitVal c) 0

/-!  Model of the Python `ipaddress` library, as used by the script
(`ip_address` for the searched address, `ip_network` with the default
`strict=True` for each `ip_prefix` entry, and `in` for containment). -/

/-- Model of `ipaddress.IPv4Address._parse_octet`: one dotted-quad part.
Nonempty, at most 3 characters, decimal digits only, value at most 255,
no leading zero. -/
def parse_octet (cs : List Char) : Option Nat :=
  if cs.isEmpty then none
  else if cs.length > 3 then none
  else if !cs.all Char.isDigit then none
  else
    let v := decimalValue cs
    if v > 255 then none
    else if cs.length > 1 && cs.headD ' ' = '0' then none
    else some v

/-- Model of the IPv4 string-to-integer conversion: exactly four octets. -/
def ipv4FromChars (cs : List Char) : Option Nat :=
  match (splitOnChar '.' cs).mapM parse_octet with
  | some [a, b, c, d] => some (((a * 256 + b) * 256 + c) * 256 + d)
  | _ => none

/-- Hexadecimal value of a character, if it is a hex digit. -/
def hexVal (c : Char) : Option Nat :=
  if '0' ≤ c ∧ c ≤ '9' then some (c.toNat - 48)
  else if 'a' ≤ c ∧ c ≤ 'f' then some (c.toNat - 87)
  else if 'A' ≤ c ∧ c ≤ 'F' then some (c.toNat - 55)
  else none

/-- Model of `IPv6Address._parse_hextet`: 1 to 4 hex digits. -/
def parse_hextet (cs : List Char) : Option Nat :=
  if cs.isEmpty || cs.length > 4 then none
  else (cs.mapM hexVal).map (·.foldl (fun a v => a * 16 + v) 0)

/-- One colon-separated piece of an IPv6 literal: either raw text, or a
16-bit value produced by the trailing embedded-IPv4 rewrite. -/
inductive HPart where
  | raw (cs : List Char)
  | val (n : Nat)

def hpartEmpty : HPart → Bool
  | .raw cs => cs.isEmpty
  | .val _ => false

def hpartParse : HPart → Option Nat
  | .raw cs => parse_hextet cs
  | .val n => some n

/-- Accumulate parsed hextets big-endian. -/
def foldHextets (l : List HPart) : Option Nat :=
  (l.mapM hpartParse).map (·.foldl (fun a v => a * 65536 + v) 0)

/-- Model of `IPv6Address._ip_int_from_string`: split on `:`, rewrite a
trailing embedded IPv4 part into two hextets, locate at most one `::`
compression, check the leading/trailing-colon rules, and fold the hextets.
(Zone ids, introduced in Python 3.9, are not modelled.) -/
def ipv6FromChars (cs : List Char) : Option Nat :=
  let parts0 := splitOnChar ':' cs
  if parts0.length < 3 then none
  else
    let lastPart := parts0.getLastD []
    let oparts : Option (List HPart) :=
      if lastPart.contains '.' then
        match ipv4FromChars lastPart with
        | none => none
        | some v => some (parts0.dropLast.map HPart.raw ++ [.val (v / 65536), .val (v % 65536)])
      else some (parts0.map HPart.raw)
    match oparts with
    | none => none
    | some parts =>
      if parts.length > 9 then none
      else
        let emptyIdxs := (List.range parts.length).filter
          (fun i => i != 0 && i + 1 != parts.length && hpartEmpty (parts.getD i (.raw ['x'])))
        match emptyIdxs with
        | [] =>
          if parts.length != 8 then none
          else if hpartEmpty (parts.headD (.raw [])) then none
          else if hpartEmpty (parts.getLastD (.raw [])) then none
          else foldHextets parts
        | [i] =>
          let hi0 := i
          let lo0 := parts.length - i - 1
          let headEmpty := hpartEmpty (parts.headD (.raw []))
          let lastEmpty := hpartEmpty (parts.getLastD (.raw []))
          let hi := if headEmpty then hi0 - 1 else hi0
          let lo := if lastEmpty then lo0 - 1 else lo0
          if headEmpty && hi != 0 then none
          else if lastEmpty && lo != 0 then none
          else if 8 - (hi + lo) < 1 then none
          else
            let skipped := 8 - (hi + lo)
            let hiParts := parts.take hi
            let loParts := if lo = 0 then [] else parts.drop (parts.length - lo)
            match foldHextets hiParts, loParts.mapM hpartParse with
            | some h, some l => some (l.foldl (fun a v => a * 65536 + v) (h * 65536 ^ skipped))
            | _, _ => none
        | _ => none

/-- An IP address object, as returned by `ipaddress.ip_address`. -/
inductive IPAddr where
  | v4 (a : Nat)
  | v6 (a : Nat)
deriving DecidableEq, Repr

/-- Model of `ipaddress.ip_address(s)`: try IPv4, then IPv6. -/
def ip_address (s : String) : Option IPAddr :=
  match ipv4FromChars s.data with
  | some a => some (.v4 a)
  | none => (ipv6FromChars s.data).map .v6

/-- An IP network object: base address with host bits zero, mask length. -/
inductive IPNet where
  | v4 (base len : Nat)
  | v6 (base len : Nat)
deriving DecidableEq, Repr

/-- Model of `_prefix_from_prefix_string`: the text after `/` must be all
decimal digits and at most the maximum mask length.
(Dotted-quad netmasks, which `IPv4Network` also accepts, are not modelled;
the dataset and the claims only use the `/len` form.) -/
def parseMaskLen (cs : List Char) (maxLen : Nat) : Option Nat :=
  if cs.isEmpty then none
  else if !cs.all Char.isDigit then none
  else if decimalValue cs ≤ maxLen then some (decimalValue cs) else none

def v4maskLen : Option (List Char) → Option Nat
  | none => some 32
  | some ms => parseMaskLen ms 32

def v6maskLen : Option (List Char) → Option Nat
  | none => some 128
  | some ms => parseMaskLen ms 128

/-- Address-plus-optional-mask to network, trying IPv4 then IPv6; the
default `strict=True` rejects a base address with host bits set. -/
def netFromParts (a : List Char) (m : Option (List Char)) : Option IPNet :=
  match ipv4FromChars a with
  | some base =>
    match v4maskLen m with
    | some len => if base % 2 ^ (32 - len) = 0 then some (.v4 base len) else none
    | none => none
  | none =>
    match ipv6FromChars a with
    | some base =>
      match v6maskLen m with
      | some len => if base % 2 ^ (128 - len) = 0 then some (.v6 base len) else none
      | none => none
    | none => none

/-- Model of `ipaddress.ip_network(s)` (strict): split on `/`
(at most one slash), then build the network. -/
def ip_network (s : String) : Option IPNet :=
  match splitOnChar '/' s.data with
  | [a] => netFromParts a none
  | [a, m] => netFromParts a (some m)
  | _ => none

/-- Model of `address in network`: false across versions, otherwise the
address lies between the network and broadcast addresses. -/
def netContains (n : IPNet) (a : IPAddr) : Bool :=
  match n, a with
  | .v4 b l, .v4 x => Nat.ble b x && Nat.ble x (b + (2 ^ (32 - l) - 1))
  | .v6 b l, .v6 x => Nat.ble b x && Nat.ble x (b + (2 ^ (128 - l) - 1))
  | _, _ => false

/-- `ip in ipaddress.ip_network(e.cidr)` for a single entry; `false` is
never reached on entries the script survives (an unparseable `ip_prefix`
raises instead, see `searchEntries`). -/
def entryContains (e : Entry) (ip : IPAddr) : Bool :=
  match ip_network e.cidr with
  | some n => netContains n ip
  | none => false

/-!  The four query functions.  Each returns its printed lines; they are
defined over the decoded entry list (the shape every claim's dataset has),
and `runQuery` below connects them to the raw JSON document. -/

/-- The distinct region values, as collected by the Python set comprehension
in `print_regions` (line 59).  A Python set has no specified iteration
order; `dedup` fixes one, which no claim depends on. -/
def region_set (entries : List Entry) : List String :=
  (entries.map (·.region)).dedup

/-- Model of `print_regions` (lines 52-60): one comma-space-joined line. -/
def print_regions (entries : List Entry) : List String :=
  [String.intercalate ", " (region_set entries)]

/-- The distinct service values, optionally restricted to a region
(case-insensitively), as in `print_services` (lines 71-74). -/
def service_set (entries : List Entry) (region : Option String) : List String :=
  if truthyStr region then
    ((entries.filter (fun e => pyUpper e.region = pyUpper (region.getD ""))).map (·.service)).dedup
  else
    (entries.map (·.service)).dedup

/-- Model of `print_services` (lines 63-75): one comma-space-joined line. -/
def print_services (entries : List Entry) (region : Option String) : List String :=
  [String.intercalate ", " (service_set entries region)]

/-- Model of `print_results` (lines 107-126), one entry at a time:
no region → `ip_prefix,service,region`; region with service → exact region
match and case-insensitive service match; region alone → case-insensitive
region match (the latter two print `ip_prefix,service`). -/
def resultLines (region service : Option String) (e : Entry) : List String :=
  if truthyStr region then
    if truthyStr service then
      if e.region = region.getD "" ∧ pyUpper e.service = pyUpper (service.getD "") then
        [e.cidr ++ "," ++ e.service]
      else []
    else
      if pyUpper e.region = pyUpper (region.getD "") then
        [e.cidr ++ "," ++ e.service]
      else []
  else
    [e.cidr ++ "," ++ e.service ++ "," ++ e.region]

/-- Model of `print_results`: the loop over `data["prefixes"]`. -/
def print_results (entries : List Entry) (region service : Option String) : List String :=
  (entries.map (resultLines region service)).flatten

/-- The list comprehension of `find_subnets` line 94: keep the entries whose
network contains the address; an entry whose `ip_prefix` fails to parse
raises `ValueError` out of `ipaddress.ip_network`, modelled as `.error`. -/
def searchEntries : List Entry → IPAddr → Except String (List Entry)
  | [], _ => .ok []
  | e :: rest, ip =>
    match ip_network e.cidr with
    | none => .error ("ValueError: " ++ e.cidr ++ " does not appear to be an IPv4 or IPv6 network")
    | some n =>
      match searchEntries rest ip with
      | .error m => .error m
      | .ok l => .ok (if netContains n ip then e :: l else l)

/-- Lines printed for the search results (`find_subnets` lines 96-104):
a header plus one descriptive line per match, or a not-found line. -/
def formatSearch : List Entry → List String
  | [] => ["ip not found in current AWS ip ranges"]
  | res => "ip found in the following regions:" ::
      res.map (fun r => "Region: " ++ r.region ++ ",  Service: " ++ r.service ++
        ",  Subnet: " ++ r.cidr)

/-- The error line of `find_subnets` line 90 (the missing space before
`is` is verbatim from the source format string). -/
def invalidIpLine (search_ip : String) : String :=
  "Error: IP address provided (" ++ search_ip ++ ")is not a valid ipv4 address."

/-!  The JSON access layer.  `data["prefixes"]` and the per-entry field
accesses are modelled by `getEntries`; any shape the Python code would
crash on (missing key, non-dict document, non-list value, ill-typed entry)
is an `.error`.  (Python performs the entry-field accesses lazily inside
each loop, so output already printed before such a crash is not tracked;
no claim concerns ill-typed entries.) -/

def decodeEntry (j : Json) : Except String Entry :=
  match j with
  | .obj kvs =>
    match jlookup kvs "ip_prefix", jlookup kvs "region", jlookup kvs "service" with
    | some (.str c), some (.str r), some (.str s) => .ok ⟨c, r, s⟩
    | _, _, _ => .error "KeyError or TypeError on an entry field"
  | _ => .error "TypeError: entry is not a dict"

def decodeEntries : List Json → Except String (List Entry)
  | [] => .ok []
  | j :: rest =>
    match decodeEntry j with
    | .error m => .error m
    | .ok e =>
      match decodeEntries rest with
      | .error m => .error m
      | .ok es => .ok (e :: es)

/-- `data["prefixes"]` plus entry decoding. -/
def getEntries (data : Json) : Except String (List Entry) :=
  match data with
  | .obj kvs =>
    match jlookup kvs "prefixes" with
    | some (.arr xs) => decodeEntries xs
    | some _ => .error "TypeError: the value under the key is not a list of entries"
    | none => .error "KeyError: the parsed document has no key named after the entry list"
  | _ => .error "TypeError: the parsed document is not a dict"

/-- Encode one entry back into JSON (used to state dataset-level claims
through the JSON layer). -/
def entryJson (e : Entry) : Json :=
  .obj [("ip_prefix", .str e.cidr), ("region", .str e.region), ("service", .str e.service)]

/-- A well-formed dataset document holding the given entries. -/
def mkData (entries : List Entry) : Json :=
  .obj [("prefixes", .arr (entries.map entryJson))]

/-- Model of `find_subnets` (lines 78-104): parse the address first
(an unparseable address prints an error line and returns, before
`data["prefixes"]` is ever touched), then filter and format. -/
def find_subnets (data : Json) (search_ip : String) : Except String (List String) :=
  match ip_address search_ip with
  | none => .ok [invalidIpLine search_ip]
  | some ip =>
    match getEntries data with
    | .error m => .error m
    | .ok es =>
      match searchEntries es ip with
      | .error m => .error m
      | .ok res => .ok (formatSearch res)

/-!  The CLI layer: argument record, fetch model, dispatch. -/

/-- The parsed `argparse` namespace: two `store_true` flags and three
optional string options (absent → `none`). -/
structure Args where
  list_regions : Bool
  list_services : Bool
  region : Option String
  service : Option String
  findip : Option String
deriving DecidableEq, Repr

/-- The query mode `main'` ends up running. -/
inductive Mode where
  | regions
  | services
  | findip
  | ranges
deriving DecidableEq, Repr

/-- The `if/elif/elif/else` chain of `main'` (lines 156-167). -/
def selectMode (args : Args) : Mode :=
  if args.list_regions then .regions
  else if args.list_services then .services
  else if truthyStr args.findip then .findip
  else .ranges

/-- Python truthiness of a query-mode flag, used to state the precedence
policy; the unfiltered ranges listing is the always-available default. -/
def flagTruthy (args : Args) : Mode → Bool
  | .regions => args.list_regions
  | .services => args.list_services
  | .findip => truthyStr args.findip
  | .ranges => true

/-- Run the selected query against the parsed document. -/
def runQuery (data : Json) (args : Args) : Except String (List String) :=
  match selectMode args with
  | .regions =>
    match getEntries data with
    | .error m => .error m
    | .ok es => .ok (print_regions es)
  | .services =>
    match getEntries data with
    | .error m => .error m
    | .ok es => .ok (print_services es args.region)
  | .findip => find_subnets data (args.findip.getD "")
  | .ranges =>
    match getEntries data with
    | .error m => .error m
    | .ok es => .ok (print_results es args.region args.service)

def aws_ip_ranges_url : String := "https://ip-ranges.amazonaws.com/ip-ranges.json"

/-- The message of `get_data` lines 37-39 (no download, no cached file). -/
def noCacheMsg : String :=
  "Error: Could not download the ip-ranges.json file and no file from a previous run exists.\n" ++
  "You could try manually downloading the file from " ++ aws_ip_ranges_url ++ ", \n" ++
  "saving it in the same directory as this script."

/-- The warning of `get_data` lines 45-46 (falling back to the cache). -/
def cacheFallbackMsg (mtime : String) : String :=
  "Could not download latest ip-ranges.json from Amazon, will use file from previous run.\n" ++
  "File: aws_subnets.json, last modified date: " ++ mtime ++ "\n"

/-- The environment of one invocation: whether the download succeeds,
whether a cache file exists, the `json.load` result of whichever file ends
up being read (`none` = the file is not valid JSON and `json.load` raises),
and the cache file's formatted modification time. -/
structure World where
  downloadOk : Bool
  cacheExists : Bool
  fileJson : Option Json
  cacheMtime : String

/-- Model of `get_data` (lines 22-49): on download failure with no cache,
print the error and return `None`; on download failure with a cache, warn
and pause, then read the cache; finally `json.load` the file that is
present (its failure is an uncaught exception). -/
def get_data (w : World) : Except String (List String × Option Json) :=
  if w.downloadOk then
    match w.fileJson with
    | none => .error "json.decoder.JSONDecodeError"
    | some j => .ok ([], some j)
  else if !w.cacheExists then
    .ok ([noCacheMsg], none)
  else
    match w.fileJson with
    | none => .error "json.decoder.JSONDecodeError"
    | some j => .ok ([cacheFallbackMsg w.cacheMtime, "Press enter to continue..."], some j)

/-- Model of `main'` (lines 129-169) after argument parsing: fetch, then
`if data:` dispatch one query, else `exit(1)`.  The result is the printed
lines with the process exit code; an uncaught exception is `.error` (its
exit code is 1, see `exitCode`). -/
def main' (w : World) (args : Args) : Except String (List String × Nat) :=
  match get_data w with
  | .error m => .error m
  | .ok (lines, odata) =>
    match odata with
    | none => .ok (lines, 1)
    | some data =>
      if data.truthy then
        match runQuery data args with
        | .error m => .error m
        | .ok q => .ok (lines ++ q, 0)
      else .ok (lines, 1)

/-- Process exit code of an invocation: 1 for an uncaught exception,
otherwise the code `main'` chose. -/
def exitCode : Except String (List String × Nat) → Nat
  | .error _ => 1
  | .ok (_, c) => c

/-- The invocation is in find-ip mode and the supplied address fails to
parse (the one dispatch path that never touches `data["prefixes"]`). -/
def findipInvalid (args : Args) : Bool :=
  !args.list_regions && !args.list_services && truthyStr args.findip &&
    (ip_address (args.findip.getD "")).isNone

/-- Whether a parse produced an IPv4 network (the shape of every entry of
a dataset of valid IPv4 CIDR blocks). -/
def isV4Net : Option IPNet → Bool
  | some (.v4 _ _) => true
  | _ => false

example : ipv4FromChars "10.1.2.3".data = some 167838211 := by decide
example : ipv4FromChars "999.1.1.1".data = none := by decide
example : ip_address "::1" = some (IPAddr.v6 1) := by decide
example : ip_network "10.0.0.0/8" = some (IPNet.v4 167772160 8) := by decide
example : ip_network "10.0.0.1/8" = none := by decide
example : entryContains ⟨"10.0.0.0/8", "r", "s"⟩ (IPAddr.v4 167838211) = true := by decide
example : entryContains ⟨"10.0.0.0/8", "r", "s"⟩ (IPAddr.v6 1) = false := by decide

/-!  ## Helper lemmas -/

theorem pyUpper_eq_empty_iff (s : String) : pyUpper s = "" ↔ s = "" := by
  constructor
  · intro h
    have h2 : s.data.map Char.toUpper = [] := congrArg String.data h
    have h3 : s.data = [] := List.map_eq_nil_iff.mp h2
    apply String.ext
    rw [h3]
  · rintro rfl
    rfl

theorem truthyStr_congr (a b : String) (h : pyUpper a = pyUpper b) :
    truthyStr (some a) = truthyStr (some b) := by
  simp only [truthyStr]
  by_cases ha : a = ""
  · have hb : b = "" := (pyUpper_eq_empty_iff b).mp (by rw [← h, ha]; rfl)
    rw [ha, hb]
  · have hb : b ≠ "" := fun hb => ha ((pyUpper_eq_empty_iff a).mp (by rw [h, hb]; rfl))
    simp [ha, hb]

theorem flatten_singletons (l : List α) (f : α → β) :
    (l.map (fun e => [f e])).flatten = l.map f := by
  induction l with
  | nil => rfl
  | cons a t ih => simp [ih]


/-!  ## Claim theorems -/

/-- C3: for every dataset and every service argument given without a region
argument, `print_results` ignores the service filter and produces the same
output as the unfiltered invocation: every entry, one line
`ip_prefix,service,region`. -/
theorem service_without_region (es : List Entry) (service : Option String) :
    print_results es none service = print_results es none none
    ∧ print_results es none none =
        es.map (fun e => e.cidr ++ "," ++ e.service ++ "," ++ e.region) := by
  constructor
  · rfl
  · simp only [print_results, resultLines, truthyStr]
    exact flatten_singletons es _

/-- C5: for every invocation in which the download fails and no cache file
exists, `get_data` prints the descriptive error and returns `None`, `main`
runs no query (the error message is the only output), and the process exits
with code 1 — for every argument combination and whatever the cache file
would have contained. -/
theorem no_cache_no_network (fj : Option Json) (mt : String) (args : Args) :
    main' ⟨false, false, fj, mt⟩ args = .ok ([noCacheMsg], 1) := rfl

/-- C7: for every combination of CLI flags exactly one query mode runs
(`selectMode` is a total function into `Mode`, and `runQuery` dispatches on
it alone), and it is the first mode whose flag is present in the precedence
order list-regions > list-services > find-ip > list-prefixes, the last
being the always-available default. -/
theorem mode_precedence (args : Args) :
    selectMode args =
      (([Mode.regions, Mode.services, Mode.findip, Mode.ranges].filter
        (flagTruthy args)).headD Mode.ranges) := by
  rcases args with ⟨lr, ls, r, sv, fi⟩
  cases lr <;> cases ls <;> cases h : truthyStr fi <;>
    simp [selectMode, flagTruthy, h]

/-- C8: for every dataset, the region set printed by `print_regions` holds
exactly the distinct region values occurring in the dataset's entries, with
no duplicates. -/
theorem regions_exact (es : List Entry) :
    (∀ r, r ∈ region_set es ↔ ∃ e, e ∈ es ∧ e.region = r)
    ∧ (region_set es).Nodup
    ∧ print_regions es = [String.intercalate ", " (region_set es)] := by
  refine ⟨fun r => ?_, List.nodup_dedup _, rfl⟩
  simp [region_set, List.mem_dedup, List.mem_map]

/-- C9: for every dataset and region value `r`, every service listed for
`r` is also listed by the region-less services query. -/
theorem services_subset (es : List Entry) (r : String) :
    service_set es (some r) ⊆ service_set es none := by
  intro s hs
  simp only [service_set] at hs ⊢
  by_cases h : truthyStr (some r) = true
  · rw [if_pos h] at hs
    rw [if_neg (by simp [truthyStr])]
    simp only [List.mem_dedup, List.mem_map] at hs ⊢
    obtain ⟨e, he, hes⟩ := hs
    exact ⟨e, (List.mem_filter.mp he).1, hes⟩
  · rw [if_neg h] at hs
    rw [if_neg (by simp [truthyStr])]
    exact hs

/-- C9 witness: a concrete instance of the subset property. -/
theorem services_subset_witness :
    service_set [⟨"3.5.140.0/22", "ap-northeast-2", "EC2"⟩] (some "AP-NORTHEAST-2") ⊆
      service_set [⟨"3.5.140.0/22", "ap-northeast-2", "EC2"⟩] none :=
  services_subset [⟨"3.5.140.0/22", "ap-northeast-2", "EC2"⟩] "AP-NORTHEAST-2"

/-- Region-only filtering is invariant under the case of the region
argument (`entry["region"].upper() == region.upper()`, line 125). -/
theorem resultLines_region_casefold (r1 r2 : String) (h : pyUpper r1 = pyUpper r2)
    (e : Entry) : resultLines (some r1) none e = resultLines (some r2) none e := by
  simp only [resultLines, Option.getD_some]
  rw [truthyStr_congr r1 r2 h]
  simp [truthyStr, h]

/-- With a region given, the service filter is invariant under the case of
the service argument (`entry["service"].upper() == service.upper()`,
line 122). -/
theorem resultLines_service_casefold (r s1 s2 : String) (h : pyUpper s1 = pyUpper s2)
    (e : Entry) :
    resultLines (some r) (some s1) e = resultLines (some r) (some s2) e := by
  simp only [resultLines, Option.getD_some]
  rw [truthyStr_congr s1 s2 h]
  simp only [h]

/-- C1 counterexample: the claim that region-plus-service filtering matches
the region case-insensitively fails.  On a one-entry dataset with region
`us-east-1`, the two region spellings differ only in letter case, yet the
region-plus-service results differ (line 122 compares the region with `==`,
without `.upper()`). -/
theorem region_service_case_cex :
    pyUpper "US-EAST-1" = pyUpper "us-east-1"
    ∧ print_results [⟨"1.2.3.0/24", "us-east-1", "ec2"⟩] (some "US-EAST-1") (some "ec2") ≠
        print_results [⟨"1.2.3.0/24", "us-east-1", "ec2"⟩] (some "us-east-1") (some "ec2") := by
  exact ⟨rfl, by decide⟩

/-- C1 amended: region-only filtering matches the region case-insensitively,
and region-plus-service filtering matches the service case-insensitively —
but it matches the region by exact string equality. -/
theorem print_results_casefold (es : List Entry) :
    (∀ r1 r2, pyUpper r1 = pyUpper r2 →
      print_results es (some r1) none = print_results es (some r2) none)
    ∧ (∀ r s1 s2, pyUpper s1 = pyUpper s2 →
      print_results es (some r) (some s1) = print_results es (some r) (some s2))
    ∧ (∀ r s, truthyStr (some r) = true → truthyStr (some s) = true →
      print_results es (some r) (some s) =
        (es.map (fun e =>
          if e.region = r ∧ pyUpper e.service = pyUpper s
          then [e.cidr ++ "," ++ e.service] else [])).flatten) := by
  refine ⟨fun r1 r2 h => ?_, fun r s1 s2 h => ?_, fun r s hr hs => ?_⟩
  · simp only [print_results]
    exact congrArg List.flatten
      (List.map_congr_left (fun e _ => resultLines_region_casefold r1 r2 h e))
  · simp only [print_results]
    exact congrArg List.flatten
      (List.map_congr_left (fun e _ => resultLines_service_casefold r s1 s2 h e))
  · simp only [print_results]
    refine congrArg List.flatten (List.map_congr_left (fun e _ => ?_))
    simp only [resultLines, Option.getD_some, hr, hs, if_true]

/-- C1 amended, witnessed at a concrete dataset and argument pair. -/
theorem print_results_casefold_witness :
    pyUpper "US-EAST-1" = pyUpper "us-east-1"
    ∧ print_results [⟨"1.2.3.0/24", "us-east-1", "ec2"⟩] (some "US-EAST-1") none =
        print_results [⟨"1.2.3.0/24", "us-east-1", "ec2"⟩] (some "us-east-1") none :=
  ⟨rfl, (print_results_casefold [⟨"1.2.3.0/24", "us-east-1", "ec2"⟩]).1
    "US-EAST-1" "us-east-1" rfl⟩

/-- C4: whenever the selected mode is find-ip and the supplied address
fails to parse, `find_subnets` prints one error line naming the offending
input (and nothing else), nothing crashes, and the invocation exits with
code 0. -/
theorem findip_invalid_exits_zero (w : World) (args : Args) (d : Json)
    (glines : List String)
    (hg : get_data w = .ok (glines, some d)) (ht : d.truthy = true)
    (hlr : args.list_regions = false) (hls : args.list_services = false)
    (s : String) (hs : args.findip = some s) (hne : (s == "") = false)
    (hip : ip_address s = none) :
    main' w args = .ok (glines ++ [invalidIpLine s], 0) := by
  simp only [main', hg, ht, if_true]
  simp only [runQuery, selectMode, hlr, hls, hs, truthyStr, hne, Bool.not_false,
    if_true, if_false, Option.getD_some, find_subnets, hip]
  simp

/-- C4 witness: `--findip 999.1.1.1` on a one-entry dataset prints the
error line naming `999.1.1.1` and exits 0. -/
theorem findip_invalid_exits_zero_witness :
    ip_address "999.1.1.1" = none
    ∧ main' ⟨true, true, some (mkData [⟨"3.5.140.0/22", "ap-northeast-2", "EC2"⟩]), ""⟩
        ⟨false, false, none, none, some "999.1.1.1"⟩ =
      .ok ([invalidIpLine "999.1.1.1"], 0) := by
  refine ⟨by decide, ?_⟩
  exact findip_invalid_exits_zero
    ⟨true, true, some (mkData [⟨"3.5.140.0/22", "ap-northeast-2", "EC2"⟩]), ""⟩
    ⟨false, false, none, none, some "999.1.1.1"⟩
    (mkData [⟨"3.5.140.0/22", "ap-northeast-2", "EC2"⟩]) []
    rfl rfl rfl rfl "999.1.1.1" rfl rfl (by decide)

/-- Accessing the entry list of a document without the key raises
(`KeyError` on a dict, `TypeError` otherwise). -/
theorem getEntries_error_of_noKey (d : Json) (h : d.hasKey "prefixes" = false) :
    ∃ m, getEntries d = .error m := by
  cases d with
  | obj kvs =>
    cases hl : jlookup kvs "prefixes" with
    | none =>
      refine ⟨"KeyError: the parsed document has no key named after the entry list", ?_⟩
      simp [getEntries, hl]
    | some v => simp [Json.hasKey, hl] at h
  | null => exact ⟨_, rfl⟩
  | bool b => exact ⟨_, rfl⟩
  | num n => exact ⟨_, rfl⟩
  | str s => exact ⟨_, rfl⟩
  | arr xs => exact ⟨_, rfl⟩

/-- C6 counterexample: a successfully parsed document that lacks the
`prefixes` key is not always fatal.  With `--findip 999.1.1.1` the address
is rejected before `data["prefixes"]` is ever read, and the process exits
with code 0, not 1. -/
theorem corrupt_data_cex :
    (Json.obj [("syncToken", Json.str "x")]).hasKey "prefixes" = false
    ∧ main' ⟨true, false, some (Json.obj [("syncToken", Json.str "x")]), ""⟩
        ⟨false, false, none, none, some "999.1.1.1"⟩ =
      .ok ([invalidIpLine "999.1.1.1"], 0)
    ∧ exitCode (main' ⟨true, false, some (Json.obj [("syncToken", Json.str "x")]), ""⟩
        ⟨false, false, none, none, some "999.1.1.1"⟩) = 0 :=
  ⟨rfl, rfl, rfl⟩

/-- C6 amended: a file that is not valid JSON is always fatal with exit
code 1 (uncaught `json.load` exception); a parsed document lacking the
`prefixes` key also exits with code 1 — `exit(1)` if the document is falsy,
an uncaught `KeyError`/`TypeError` otherwise — except in find-ip mode with
an unparseable address, where the key is never accessed and the exit code
is 0. -/
theorem corrupt_data_amended (w : World) (args : Args)
    (hread : w.downloadOk = true ∨ w.cacheExists = true) :
    (w.fileJson = none → exitCode (main' w args) = 1)
    ∧ (∀ d, w.fileJson = some d → d.hasKey "prefixes" = false →
        exitCode (main' w args) =
          if d.truthy && findipInvalid args then 0 else 1) := by
  rcases w with ⟨dl, ce, fj, mt⟩
  have hget : ∀ d, fj = some d →
      ∃ lines, get_data ⟨dl, ce, fj, mt⟩ = .ok (lines, some d) := by
    intro d hj
    cases dl
    · rcases hread with h | h
      · exact absurd h (by simp)
      · subst h hj
        exact ⟨_, rfl⟩
    · subst hj
      exact ⟨_, rfl⟩
  constructor
  · intro hj
    subst hj
    cases dl
    · rcases hread with h | h
      · exact absurd h (by simp)
      · subst h
        rfl
    · rfl
  · intro d hj hk
    obtain ⟨lines, hg⟩ := hget d hj
    obtain ⟨m, hm⟩ := getEntries_error_of_noKey d hk
    simp only [main', hg]
    cases ht : d.truthy with
    | false => simp [exitCode, ht]
    | true =>
      simp only [ht, if_true]
      rcases args with ⟨lr, ls, r, sv, fi⟩
      cases lr
      · cases ls
        · cases hfi : truthyStr fi with
          | false =>
            simp [runQuery, selectMode, hfi, hm, exitCode, findipInvalid, ht]
          | true =>
            cases hip : ip_address (fi.getD "") with
            | none =>
              simp [runQuery, selectMode, hfi, find_subnets, hip, exitCode,
                findipInvalid, ht]
            | some ip =>
              simp [runQuery, selectMode, hfi, find_subnets, hip, hm, exitCode,
                findipInvalid, ht]
        · simp [runQuery, selectMode, hm, exitCode, findipInvalid, ht]
      · simp [runQuery, selectMode, hm, exitCode, findipInvalid, ht]

/-- C6 amended, witnessed: download succeeds, the file parses to a truthy
dict without the `prefixes` key, and the invocation is `--findip
999.1.1.1`; the theorem instantiates to exit code 0 here. -/
theorem corrupt_data_amended_witness :
    exitCode (main' ⟨true, false, some (Json.obj [("x", Json.num 1)]), ""⟩
        ⟨false, false, none, none, some "999.1.1.1"⟩) =
      if (Json.obj [("x", Json.num 1)]).truthy &&
          findipInvalid ⟨false, false, none, none, some "999.1.1.1"⟩
        then 0 else 1 :=
  (corrupt_data_amended ⟨true, false, some (Json.obj [("x", Json.num 1)]), ""⟩
    ⟨false, false, none, none, some "999.1.1.1"⟩ (Or.inl rfl)).2
    (Json.obj [("x", Json.num 1)]) rfl rfl


/-- A parsed mask length is at most the maximum. -/
theorem parseMaskLen_le (cs : List Char) (mx v : Nat)
    (h : parseMaskLen cs mx = some v) : v ≤ mx := by
  simp only [parseMaskLen] at h
  split at h
  · exact absurd h (by simp)
  · split at h
    · exact absurd h (by simp)
    · split at h
      · injection h with h'
        subst h'
        assumption
      · exact absurd h (by simp)

theorem v4maskLen_le (m : Option (List Char)) (v : Nat)
    (h : v4maskLen m = some v) : v ≤ 32 := by
  cases m with
  | none => injection h with h'; omega
  | some ms => exact parseMaskLen_le ms 32 v h

/-- An IPv4 network built by `netFromParts` has a mask length of at most 32
and a base address with host bits zero (the `strict=True` check). -/
theorem netFromParts_v4 (a : List Char) (m : Option (List Char)) (b l : Nat)
    (h : netFromParts a m = some (.v4 b l)) : l ≤ 32 ∧ b % 2 ^ (32 - l) = 0 := by
  unfold netFromParts at h
  split at h
  next base heq4 =>
    split at h
    next len heqm =>
      split at h
      next hmod =>
        injection h with h2
        injection h2 with hb hl
        subst hb
        subst hl
        exact ⟨v4maskLen_le m _ heqm, hmod⟩
      next => exact absurd h (by simp)
    next => exact absurd h (by simp)
  next heq4 =>
    split at h
    next base6 heq6 =>
      split at h
      next len6 heqm6 =>
        split at h
        next => exact absurd h (by simp)
        next => exact absurd h (by simp)
      next => exact absurd h (by simp)
    next => exact absurd h (by simp)

/-- Any IPv4 network produced by `ip_network` has mask length at most 32
and host bits zero. -/
theorem ip_network_v4 (s : String) (b l : Nat)
    (h : ip_network s = some (.v4 b l)) : l ≤ 32 ∧ b % 2 ^ (32 - l) = 0 := by
  simp only [ip_network] at h
  split at h
  · exact netFromParts_v4 _ _ _ _ h
  · exact netFromParts_v4 _ _ _ _ h
  · exact absurd h (by simp)

/-- The containment test of the `in` operator agrees with network/mask
arithmetic: for a strict network, the address lies in the range iff its
quotient by the block size equals the base's. -/
theorem netContains_iff_div (b l a : Nat) (hb : b % 2 ^ (32 - l) = 0) :
    netContains (.v4 b l) (.v4 a) = true ↔
      a / 2 ^ (32 - l) = b / 2 ^ (32 - l) := by
  have hm : 0 < 2 ^ (32 - l) := Nat.pow_pos (by norm_num)
  simp only [netContains, Bool.and_eq_true, Nat.ble_eq]
  obtain ⟨k, hk⟩ : ∃ k, b = 2 ^ (32 - l) * k :=
    ⟨b / 2 ^ (32 - l), (Nat.mul_div_cancel' (Nat.dvd_of_mod_eq_zero hb)).symm⟩
  have hbm : b / 2 ^ (32 - l) = k := by
    rw [hk, Nat.mul_div_cancel_left _ hm]
  constructor
  · rintro ⟨h1, h2⟩
    rw [hbm]
    apply Nat.div_eq_of_lt_le
    · calc k * 2 ^ (32 - l) = b := by rw [hk, Nat.mul_comm]
        _ ≤ a := h1
    · have h3 : a < b + 2 ^ (32 - l) := by omega
      calc a < b + 2 ^ (32 - l) := h3
        _ = (k + 1) * 2 ^ (32 - l) := by rw [hk]; ring
  · intro hq
    rw [hbm] at hq
    have hdm := Nat.div_add_mod a (2 ^ (32 - l))
    have hmod : a % 2 ^ (32 - l) < 2 ^ (32 - l) := Nat.mod_lt a hm
    rw [hq] at hdm
    constructor
    · omega
    · omega

/-- When every entry's CIDR block parses, the search comprehension raises
nothing and keeps, in dataset order, exactly the entries containing the
address. -/
theorem searchEntries_ok (es : List Entry) (ip : IPAddr)
    (h : ∀ e ∈ es, (ip_network e.cidr).isSome = true) :
    searchEntries es ip = .ok (es.filter (fun e => entryContains e ip)) := by
  induction es with
  | nil => rfl
  | cons e rest ih =>
    have he := h e (by simp)
    cases hn : ip_network e.cidr with
    | none => rw [hn] at he; simp at he
    | some n =>
      have ihr := ih (fun x hx => h x (by simp [hx]))
      simp only [searchEntries, hn, ihr, List.filter_cons, entryContains]

/-- Decoding the encoding of a well-formed dataset gives it back. -/
theorem decodeEntries_map (es : List Entry) :
    decodeEntries (es.map entryJson) = .ok es := by
  induction es with
  | nil => rfl
  | cons e t ih =>
    have h1 : decodeEntry (entryJson e) = Except.ok e := rfl
    simp only [List.map_cons, decodeEntries, h1, ih]

theorem getEntries_mkData (es : List Entry) :
    getEntries (mkData es) = .ok es :=
  decodeEntries_map es

/-- C2: over a dataset of valid IPv4 CIDR blocks and an input that parses
as an IPv4 address, the search keeps an entry iff its block contains the
address (equivalently, by network/mask arithmetic, iff the address and the
base agree above the host bits), in dataset order; `find_subnets` prints
the formatted matches and, when none contains the address, the not-found
line rather than an error. -/
theorem find_subnets_containment (es : List Entry)
    (hv : ∀ e ∈ es, isV4Net (ip_network e.cidr) = true)
    (s : String) (a : Nat) (hp : ip_address s = some (IPAddr.v4 a)) :
    searchEntries es (IPAddr.v4 a) =
      .ok (es.filter (fun e => entryContains e (IPAddr.v4 a)))
    ∧ (∀ e, e ∈ es.filter (fun e => entryContains e (IPAddr.v4 a)) ↔
        e ∈ es ∧ entryContains e (IPAddr.v4 a) = true)
    ∧ (∀ e b l, ip_network e.cidr = some (IPNet.v4 b l) →
        (entryContains e (IPAddr.v4 a) = true ↔
          a / 2 ^ (32 - l) = b / 2 ^ (32 - l)))
    ∧ find_subnets (mkData es) s =
        .ok (formatSearch (es.filter (fun e => entryContains e (IPAddr.v4 a))))
    ∧ (es.filter (fun e => entryContains e (IPAddr.v4 a)) = [] →
        find_subnets (mkData es) s = .ok ["ip not found in current AWS ip ranges"]) := by
  have hsome : ∀ e ∈ es, (ip_network e.cidr).isSome = true := by
    intro e he
    have := hv e he
    cases hne : ip_network e.cidr <;> simp [isV4Net, hne] at this ⊢
  have h1 := searchEntries_ok es (IPAddr.v4 a) hsome
  have h4 : find_subnets (mkData es) s =
      .ok (formatSearch (es.filter (fun e => entryContains e (IPAddr.v4 a)))) := by
    simp only [find_subnets, hp, getEntries_mkData, h1]
  refine ⟨h1, fun e => List.mem_filter, fun e b l hn => ?_, h4, fun hnil => ?_⟩
  · have hdiv := netContains_iff_div b l a (ip_network_v4 e.cidr b l hn).2
    simp only [entryContains, hn]
    exact hdiv
  · rw [h4, hnil]
    rfl

/-- C2 witness: on a two-block dataset, `find_subnets` at `10.1.2.3`
(contained in `10.0.0.0/8`, not in `11.0.0.0/8`). -/
theorem find_subnets_containment_witness :
    (∀ e ∈ ([⟨"10.0.0.0/8", "us-east-1", "AMAZON"⟩,
             ⟨"11.0.0.0/8", "eu-west-1", "EC2"⟩] : List Entry),
      isV4Net (ip_network e.cidr) = true)
    ∧ ip_address "10.1.2.3" = some (IPAddr.v4 167838211)
    ∧ (searchEntries [⟨"10.0.0.0/8", "us-east-1", "AMAZON"⟩,
          ⟨"11.0.0.0/8", "eu-west-1", "EC2"⟩] (IPAddr.v4 167838211) =
        .ok ([⟨"10.0.0.0/8", "us-east-1", "AMAZON"⟩,
          ⟨"11.0.0.0/8", "eu-west-1", "EC2"⟩].filter
            (fun e => entryContains e (IPAddr.v4 167838211)))
      ∧ (∀ e, e ∈ ([⟨"10.0.0.0/8", "us-east-1", "AMAZON"⟩,
            ⟨"11.0.0.0/8", "eu-west-1", "EC2"⟩] : List Entry).filter
              (fun e => entryContains e (IPAddr.v4 167838211)) ↔
          e ∈ ([⟨"10.0.0.0/8", "us-east-1", "AMAZON"⟩,
            ⟨"11.0.0.0/8", "eu-west-1", "EC2"⟩] : List Entry)
          ∧ entryContains e (IPAddr.v4 167838211) = true)
      ∧ (∀ e b l, ip_network e.cidr = some (IPNet.v4 b l) →
          (entryContains e (IPAddr.v4 167838211) = true ↔
            167838211 / 2 ^ (32 - l) = b / 2 ^ (32 - l)))
      ∧ find_subnets (mkData [⟨"10.0.0.0/8", "us-east-1", "AMAZON"⟩,
            ⟨"11.0.0.0/8", "eu-west-1", "EC2"⟩]) "10.1.2.3" =
          .ok (formatSearch ([⟨"10.0.0.0/8", "us-east-1", "AMAZON"⟩,
            ⟨"11.0.0.0/8", "eu-west-1", "EC2"⟩].filter
              (fun e => entryContains e (IPAddr.v4 167838211))))
      ∧ (([⟨"10.0.0.0/8", "us-east-1", "AMAZON"⟩,
            ⟨"11.0.0.0/8", "eu-west-1", "EC2"⟩] : List Entry).filter
              (fun e => entryContains e (IPAddr.v4 167838211)) = [] →
          find_subnets (mkData [⟨"10.0.0.0/8", "us-east-1", "AMAZON"⟩,
            ⟨"11.0.0.0/8", "eu-west-1", "EC2"⟩]) "10.1.2.3" =
            .ok ["ip not found in current AWS ip ranges"])) := by
  refine ⟨by decide, by decide, ?_⟩
  exact find_subnets_containment
    [⟨"10.0.0.0/8", "us-east-1", "AMAZON"⟩, ⟨"11.0.0.0/8", "eu-west-1", "EC2"⟩]
    (by decide) "10.1.2.3" 167838211 (by decide)

/-- C10: an input that parses as an IPv6 address is not rejected as
invalid and nothing crashes; over a dataset of IPv4 CIDR blocks the
version-mismatched containment tests are all false, so the search reports
the not-found line. -/
theorem find_subnets_v6_not_found (es : List Entry)
    (hv : ∀ e ∈ es, isV4Net (ip_network e.cidr) = true)
    (s : String) (a : Nat) (hp : ip_address s = some (IPAddr.v6 a)) :
    find_subnets (mkData es) s = .ok ["ip not found in current AWS ip ranges"] := by
  have hsome : ∀ e ∈ es, (ip_network e.cidr).isSome = true := by
    intro e he
    have := hv e he
    cases hne : ip_network e.cidr <;> simp [isV4Net, hne] at this ⊢
  have h1 := searchEntries_ok es (IPAddr.v6 a) hsome
  have h2 : es.filter (fun e => entryContains e (IPAddr.v6 a)) = [] := by
    rw [List.filter_eq_nil_iff]
    intro e he
    have := hv e he
    cases hne : ip_network e.cidr with
    | none => simp [isV4Net, hne] at this
    | some n =>
      cases n with
      | v4 b l => simp [entryContains, hne, netContains]
      | v6 b l => rw [hne] at this; simp [isV4Net] at this
  simp only [find_subnets, hp, getEntries_mkData, h1, h2]
  rfl

/-- C10 witness: `::1` parses as IPv6 and is reported not found over an
IPv4 dataset, with no invalid-address error and no exception. -/
theorem find_subnets_v6_not_found_witness :
    (∀ e ∈ ([⟨"3.5.140.0/22", "ap-northeast-2", "EC2"⟩] : List Entry),
      isV4Net (ip_network e.cidr) = true)
    ∧ ip_address "::1" = some (IPAddr.v6 1)
    ∧ find_subnets (mkData [⟨"3.5.140.0/22", "ap-northeast-2", "EC2"⟩]) "::1" =
        .ok ["ip not found in current AWS ip ranges"] := by
  refine ⟨by decide, by decide, ?_⟩
  exact find_subnets_v6_not_found [⟨"3.5.140.0/22", "ap-northeast-2", "EC2"⟩]
    (by decide) "::1" 1 (by decide)
